import Mathlib

/-!
Shallow embedding of the `water` irrigation controller
(`src/main.rs` and `src/config.rs`).

Machine floats (`f64`) are modelled by `F64`: NaN, signed infinities, and
finite values represented as rationals; comparisons and division follow the
IEEE rules that matter for the control flow (any comparison with NaN is
false, division by zero yields an infinity or NaN).

Side effects are modelled as event traces: a physical pin write, a sleep,
or a logged warning.  Hardware is an oracle `Hw` giving the outcome of each
physical write.  Fallible operations return their trace together with an
optional error.

Wall-clock instants for the trigger computation are natural numbers of
seconds since the epoch (UTC, so a calendar day is exactly 86400 seconds);
the wait loop is modelled in milliseconds, matching the constants in `run`.
-/

/-- Model of an `f64` value: NaN, a signed infinity (`true` meaning the
positive one), or a finite value represented exactly as a rational. -/
inductive F64 where
  | nan : F64
  | inf : Bool → F64
  | fin : ℚ → F64
deriving DecidableEq

/-- IEEE `<=` on modelled `f64` values: any comparison involving NaN is
false; the negative infinity is below everything else, the positive one
above. -/
def F64.fle : F64 → F64 → Bool
  | .nan, _ => false
  | _, .nan => false
  | .inf b, .inf c => !b || c
  | .inf b, .fin _ => !b
  | .fin _, .inf c => c
  | .fin x, .fin y => decide (x ≤ y)

/-- IEEE division on modelled `f64` values: NaN propagates, `inf / inf`
is NaN, a finite value divided by (unsigned) zero gives an infinity of the
numerator's sign (NaN for `0 / 0`), division by an infinity gives zero. -/
def F64.fdiv : F64 → F64 → F64
  | .nan, _ => .nan
  | _, .nan => .nan
  | .inf _, .inf _ => .nan
  | .inf b, .fin y => if y < 0 then .inf (!b) else .inf b
  | .fin _, .inf _ => .fin 0
  | .fin x, .fin y =>
    if y = 0 then
      if x = 0 then .nan
      else if 0 < x then .inf true
      else .inf false
    else .fin (x / y)

/-- The rational value of a finite modelled float (used only after the
range check has established finiteness). -/
def F64.toQ : F64 → ℚ
  | .fin q => q
  | _ => 0

/-- Observable events of the controller: a physical write of a value to a
named line, a blocking sleep of some seconds, the out-of-range warning of
`pump_for_secs`, and the per-pump failure warning of `run`. -/
inductive Event where
  | write (pin : String) (value : ℕ)
  | sleep (secs : ℚ)
  | warnOutOfRange (pump : String)
  | warnPumpFailed (err : String)
deriving DecidableEq

/-- Hardware oracle: the outcome of a physical write of a value to a named
line, `none` for success or `some` error message. -/
abbrev Hw := String → ℕ → Option String

/-- The physical write an event performs, if any. -/
def eventWrite : Event → Option (String × ℕ)
  | .write pin value => some (pin, value)
  | _ => none

/-- The physical writes occurring in a trace. -/
def writesOf (evs : List Event) : List (String × ℕ) :=
  evs.filterMap eventWrite

/-- Model of `Pin` in `main.rs`: the pin's name together with whether a
line handle was requested at construction (`handle.is_some()`, i.e. the
`enable` flag passed to `Pin::new`). -/
structure Pin where
  name : String
  enabled : Bool
deriving DecidableEq

/-- `Pin::set_value_raw`: performs the physical write only when a handle
exists (the pin is enabled); a disabled pin accepts the write and returns
success with no physical effect. -/
def Pin.set_value_raw (hw : Hw) (p : Pin) (value : ℕ) : List Event × Option String :=
  if p.enabled then
    match hw p.name value with
    | none => ([.write p.name value], none)
    | some e => ([], some e)
  else ([], none)

/-- `Pin::set_value`: logs a debug line (not tracked) and delegates to
`set_value_raw`. -/
def Pin.set_value (hw : Hw) (p : Pin) (value : ℕ) : List Event × Option String :=
  p.set_value_raw hw value

/-- `Pin::create_pulse`: set the level to 1, sleep for the duration, set
the level back to 0; an error of the first write aborts before the sleep
and the second write. -/
def Pin.create_pulse (hw : Hw) (p : Pin) (duration : ℚ) : List Event × Option String :=
  let r1 := p.set_value hw 1
  match r1.2 with
  | some e => (r1.1, some e)
  | none =>
    let r2 := p.set_value hw 0
    (r1.1 ++ [.sleep duration] ++ r2.1, r2.2)

/-- Model of `Pump` in `main.rs`. -/
structure Pump where
  name : String
  pin : Pin
  ml_per_s : F64
  ml_per_day : F64
deriving DecidableEq

/-- `Pump::pump`: pulse the pin for the given duration. -/
def Pump.pump (hw : Hw) (p : Pump) (duration : ℚ) : List Event × Option String :=
  p.pin.create_pulse hw duration

/-- The guard of `pump_for_secs`: `0.0 <= secs && secs <= 30.0` on `f64`
values (inclusive at both ends, false whenever `secs` is NaN). -/
def inRange (secs : F64) : Bool :=
  F64.fle (F64.fin 0) secs && F64.fle secs (F64.fin 30)

/-- `Pump::pump_for_secs`: when the requested duration passes the range
check, pulse for it; otherwise warn and do nothing, returning success. -/
def Pump.pump_for_secs (hw : Hw) (p : Pump) (secs : F64) : List Event × Option String :=
  if inRange secs then p.pump hw secs.toQ
  else ([.warnOutOfRange p.name], none)

/-- `Pump::water`: derive the duration `ml_per_day / ml_per_s` and pump
for it through the range check. -/
def Pump.water (hw : Hw) (p : Pump) : List Event × Option String :=
  p.pump_for_secs hw (F64.fdiv p.ml_per_day p.ml_per_s)

/-- Seconds in a calendar day (the model works in UTC, as `run` does). -/
def secondsPerDay : ℕ := 86400

/-- The trigger computation at the top of `run`'s outer loop: combine the
current date with the configured time of day `S` (seconds after midnight);
if that instant is not after `now`, advance it by one day. -/
def nextTrigger (now S : ℕ) : ℕ :=
  let watering_date_time := now / secondsPerDay * secondsPerDay + S
  if watering_date_time ≤ now then watering_date_time + secondsPerDay
  else watering_date_time

/-- `sleep_duration` in `run`: one second, in milliseconds. -/
def sleepDurationMs : ℕ := 1000

/-- `delta_t` in `run`: the maximal error of a sleep before a time jump is
assumed, in milliseconds. -/
def deltaTMs : ℕ := 10000

/-- Outcome of one iteration of `run`'s inner wait loop. -/
inductive WaitOutcome where
  | restart
  | fire
  | continueWait (t : ℕ)
deriving DecidableEq

/-- One iteration of the wait loop, entered with last-observed time `t`
(milliseconds) while `t < T`: after the sleep the clock reads `new_t`; if
the sleep error exceeds `delta_t` in absolute value the outer loop is
restarted; otherwise `t` becomes `new_t` and the loop either continues
waiting or exits to the watering phase. -/
def waitStep (t T new_t : ℕ) : WaitOutcome :=
  let e : ℤ := (new_t : ℤ) - ((t : ℤ) + (sleepDurationMs : ℤ))
  if deltaTMs < e.natAbs then .restart
  else if new_t < T then .continueWait new_t
  else .fire

/-- `pause_duration` in `run`: the pause after each pump, in seconds. -/
def pauseSecs : ℚ := 1

/-- The body of `run`'s watering loop for one pump: water it, log a
warning if that failed, then pause regardless of the outcome. -/
def pumpSegment (hw : Hw) (p : Pump) : List Event :=
  let r := p.water hw
  r.1 ++ (match r.2 with
          | none => []
          | some e => [.warnPumpFailed e]) ++ [.sleep pauseSecs]

/-- The watering phase of `run`: each pump of the slice in order. -/
def wateringCycle (hw : Hw) : List Pump → List Event
  | [] => []
  | p :: ps => pumpSegment hw p ++ wateringCycle hw ps

/-- `DEFAULT_TEST_SECS` in `main.rs`. -/
def DEFAULT_TEST_SECS : F64 := F64.fin 1

/-- The arguments of the `test` subcommand. -/
structure TestArgs where
  pump : String
  secs : Option F64
deriving DecidableEq

/-- The errors `main` can return from `test`: the unknown-pump error
(carrying the pump's name, as `PumpNotFoundError` does) or an underlying
actuation error. -/
inductive MainError where
  | pumpNotFound (pump_name : String)
  | actuation (msg : String)
deriving DecidableEq

/-- The `test` function in `main.rs`: find the first pump with the given
name; if found, pulse it for the given seconds (default
`DEFAULT_TEST_SECS`); otherwise log and return `PumpNotFoundError`. -/
def test (hw : Hw) (test_args : TestArgs) (pumps : List Pump) :
    List Event × Option MainError :=
  match pumps.find? (fun pump => pump.name == test_args.pump) with
  | some pump =>
    let secs := test_args.secs.getD DEFAULT_TEST_SECS
    let r := pump.pump_for_secs hw secs
    (r.1, r.2.map MainError.actuation)
  | none => ([], some (.pumpNotFound test_args.pump))

/-- The process exit code resulting from `main` returning the given
result: 0 on `Ok`, 1 on any `Err` (Rust's exit behavior for a `main`
returning `Result`). -/
def exitCode (r : Option MainError) : ℕ :=
  match r with
  | none => 0
  | some _ => 1

/-! Concrete sample values used by the witnesses. -/

/-- A hardware oracle on which every write succeeds. -/
def hwOk : Hw := fun _ _ => none

/-- A hardware oracle on which every write fails. -/
def hwFail : Hw := fun _ _ => some "io error"

/-- An enabled sample pin. -/
def pinA : Pin := ⟨"gpio1", true⟩

/-- A second enabled sample pin. -/
def pinB : Pin := ⟨"gpio2", true⟩

/-- A disabled sample pin. -/
def pinOff : Pin := ⟨"gpio3", false⟩

/-- A sample pump: 2 mL/s, 20 mL/day, so a 10 s pulse. -/
def pumpA : Pump := ⟨"p1", pinA, F64.fin 2, F64.fin 20⟩

/-- A second sample pump: 4 mL/s, 20 mL/day, so a 5 s pulse. -/
def pumpB : Pump := ⟨"p2", pinB, F64.fin 4, F64.fin 20⟩

/-- A sample pump on the disabled pin. -/
def pumpC : Pump := ⟨"p3", pinOff, F64.fin 2, F64.fin 20⟩

/-- A sample pump with a zero flow rate. -/
def pumpZero : Pump := ⟨"pz", pinA, F64.fin 0, F64.fin 100⟩

/-! Helper lemmas shared by several proofs. -/

/-- The writes of a concatenated trace. -/
theorem writesOf_append (xs ys : List Event) :
    writesOf (xs ++ ys) = writesOf xs ++ writesOf ys :=
  List.filterMap_append xs ys eventWrite

/-- The four possible traces of `create_pulse`, depending on the pin being
enabled and on the hardware outcomes of the two writes. -/
theorem create_pulse_trace_cases (hw : Hw) (p : Pin) (d : ℚ) :
    (p.create_pulse hw d).1 = [] ∨
    (p.create_pulse hw d).1 = [.sleep d] ∨
    (p.create_pulse hw d).1 = [.write p.name 1, .sleep d] ∨
    (p.create_pulse hw d).1 = [.write p.name 1, .sleep d, .write p.name 0] := by
  unfold Pin.create_pulse Pin.set_value Pin.set_value_raw
  by_cases he : p.enabled
  · simp only [he, if_true]
    cases h1 : hw p.name 1
    · cases h0 : hw p.name 0 <;> simp
    · simp
  · simp [he]

/-- Every write in a `create_pulse` trace is on the pin itself. -/
theorem create_pulse_writes_on_pin (hw : Hw) (p : Pin) (d : ℚ) :
    ∀ w ∈ writesOf (p.create_pulse hw d).1, w.1 = p.name := by
  intro w hw_mem
  rcases create_pulse_trace_cases hw p d with h | h | h | h <;>
    rw [h] at hw_mem <;> simp [writesOf, eventWrite] at hw_mem
  · simp [hw_mem]
  · rcases hw_mem with h2 | h2 <;> simp [h2]

/-- Every write in a `water` trace is on the pump's pin. -/
theorem water_writes_on_pin (hw : Hw) (p : Pump) :
    ∀ w ∈ writesOf (p.water hw).1, w.1 = p.pin.name := by
  intro w hw_mem
  unfold Pump.water Pump.pump_for_secs Pump.pump at hw_mem
  by_cases hr : inRange (F64.fdiv p.ml_per_day p.ml_per_s)
  · rw [if_pos hr] at hw_mem
    exact create_pulse_writes_on_pin hw p.pin _ w hw_mem
  · rw [if_neg hr] at hw_mem
    simp [writesOf, eventWrite] at hw_mem

/-! Claim C1: the next-trigger computation. -/

/-- C1: for every configured daily start time `S` (seconds after midnight,
`S < 86400`) and every current time `now`, the next trigger
`T = nextTrigger now S` computed at the start of the run loop satisfies
`T > now`, `T`'s time-of-day equals `S`, and `T`'s date equals `now`'s
date when `S` is later than `now`'s time-of-day, and `now`'s date plus one
day otherwise (including when the candidate equals `now` exactly). -/
theorem nextTrigger_correct (now S : ℕ) (hS : S < secondsPerDay) :
    now < nextTrigger now S ∧
    nextTrigger now S % secondsPerDay = S ∧
    (now % secondsPerDay < S →
      nextTrigger now S / secondsPerDay = now / secondsPerDay) ∧
    (S ≤ now % secondsPerDay →
      nextTrigger now S / secondsPerDay = now / secondsPerDay + 1) := by
  unfold nextTrigger secondsPerDay at *
  dsimp only
  split <;> omega

/-- Witness for C1 at `now = 90000`, `S = 2000`: the time-of-day of `now`
is 3600, so the trigger falls on the next day. -/
theorem nextTrigger_correct_witness :
    (2000 : ℕ) < secondsPerDay ∧
    (90000 < nextTrigger 90000 2000 ∧
     nextTrigger 90000 2000 % secondsPerDay = 2000 ∧
     (90000 % secondsPerDay < 2000 →
       nextTrigger 90000 2000 / secondsPerDay = 90000 / secondsPerDay) ∧
     (2000 ≤ 90000 % secondsPerDay →
       nextTrigger 90000 2000 / secondsPerDay = 90000 / secondsPerDay + 1)) :=
  ⟨by decide, nextTrigger_correct 90000 2000 (by decide)⟩

/-! Claim C2: the range check in `water`. -/

/-- C2: `water` computes `secs = ml_per_day / ml_per_s`; when `secs` lies
in the inclusive range `[0, 30]` it invokes exactly one pulse of that
duration, and when `secs` is outside the range it logs a warning and
performs no actuation at all (the trace holds no pin write). -/
theorem water_range_check (hw : Hw) (p : Pump) :
    p.water hw = p.pump_for_secs hw (F64.fdiv p.ml_per_day p.ml_per_s) ∧
    (inRange (F64.fdiv p.ml_per_day p.ml_per_s) = true →
      p.water hw =
        p.pin.create_pulse hw (F64.fdiv p.ml_per_day p.ml_per_s).toQ) ∧
    (inRange (F64.fdiv p.ml_per_day p.ml_per_s) = false →
      p.water hw = ([.warnOutOfRange p.name], none) ∧
      writesOf (p.water hw).1 = []) := by
  refine ⟨rfl, ?_, ?_⟩
  · intro h
    simp [Pump.water, Pump.pump_for_secs, Pump.pump, h]
  · intro h
    have hwd : p.water hw = ([.warnOutOfRange p.name], none) := by
      simp [Pump.water, Pump.pump_for_secs, h]
    exact ⟨hwd, by rw [hwd]; rfl⟩

/-- Witness for C2 on `pumpA` (20 mL/day at 2 mL/s, so 10 s, in range)
with succeeding hardware. -/
theorem water_range_check_witness :
    inRange (F64.fdiv pumpA.ml_per_day pumpA.ml_per_s) = true ∧
    (pumpA.water hwOk =
       pumpA.pump_for_secs hwOk (F64.fdiv pumpA.ml_per_day pumpA.ml_per_s) ∧
     (inRange (F64.fdiv pumpA.ml_per_day pumpA.ml_per_s) = true →
       pumpA.water hwOk =
         pumpA.pin.create_pulse hwOk
           (F64.fdiv pumpA.ml_per_day pumpA.ml_per_s).toQ) ∧
     (inRange (F64.fdiv pumpA.ml_per_day pumpA.ml_per_s) = false →
       pumpA.water hwOk = ([.warnOutOfRange pumpA.name], none) ∧
       writesOf (pumpA.water hwOk).1 = [])) :=
  ⟨by with_unfolding_all decide, water_range_check hwOk pumpA⟩

/-! Claim C3: clock-jump detection in the wait loop. -/

/-- C3: in an iteration of the waiting phase entered with `t < T`, if the
observed delta after the one-second sleep differs from the expected sleep
duration by more than the 10 s tolerance in either direction, the loop
abandons the stale trigger and restarts from the trigger computation; a
firing requires the observed time to have reached `T`, and a backward
clock jump never yields a firing. -/
theorem waitStep_clock_jump (t T new_t : ℕ) (hwait : t < T) :
    (deltaTMs < ((new_t : ℤ) - ((t : ℤ) + (sleepDurationMs : ℤ))).natAbs →
      waitStep t T new_t = .restart) ∧
    (waitStep t T new_t = .fire → T ≤ new_t) ∧
    (new_t < t → waitStep t T new_t ≠ .fire) := by
  refine ⟨fun h => by simp [waitStep, h], ?_, ?_⟩
  · intro hfire
    unfold waitStep at hfire
    dsimp only at hfire
    split at hfire
    · exact absurd hfire (by simp)
    · split at hfire
      · exact absurd hfire (by simp)
      · omega
  · intro hlt hfire
    unfold waitStep at hfire
    dsimp only at hfire
    split at hfire
    · exact absurd hfire (by simp)
    · split at hfire
      · exact absurd hfire (by simp)
      · omega

/-- Witness for C3: waiting with `t = 0` for `T = 5000` and observing
`new_t = 20000` after the sleep (a 19 s error) restarts the wait. -/
theorem waitStep_clock_jump_witness :
    (0 : ℕ) < 5000 ∧
    deltaTMs < ((20000 : ℤ) - ((0 : ℤ) + (sleepDurationMs : ℤ))).natAbs ∧
    ((deltaTMs < ((20000 : ℤ) - ((0 : ℤ) + (sleepDurationMs : ℤ))).natAbs →
       waitStep 0 5000 20000 = .restart) ∧
     (waitStep 0 5000 20000 = .fire → 5000 ≤ 20000) ∧
     (20000 < 0 → waitStep 0 5000 20000 ≠ .fire)) :=
  ⟨by decide, by decide, waitStep_clock_jump 0 5000 20000 (by decide)⟩

/-! Claim C4: per-pump error isolation in the watering loop. -/

/-- C4: in every watering cycle each pump is attempted in turn; an error
from one pump is logged as a warning and does not terminate the loop or
prevent the remaining pumps from being attempted, and the fixed one-second
pause follows every pump regardless of success or failure, including the
last one. -/
theorem wateringCycle_error_isolation (hw : Hw) (p : Pump) (ps : List Pump) :
    wateringCycle hw (p :: ps) = pumpSegment hw p ++ wateringCycle hw ps ∧
    (∀ e, (p.water hw).2 = some e →
      pumpSegment hw p =
        (p.water hw).1 ++ [.warnPumpFailed e, .sleep pauseSecs]) ∧
    ((p.water hw).2 = none →
      pumpSegment hw p = (p.water hw).1 ++ [.sleep pauseSecs]) := by
  refine ⟨rfl, ?_, ?_⟩
  · intro e he
    simp [pumpSegment, he]
  · intro he
    simp [pumpSegment, he]

/-- Witness for C4: on hardware where every write fails, `pumpA` fails
with the propagated error, the warning and the pause are still emitted,
and the cycle proceeds to `pumpB`. -/
theorem wateringCycle_error_isolation_witness :
    (pumpA.water hwFail).2 = some "io error" ∧
    (wateringCycle hwFail [pumpA, pumpB] =
       pumpSegment hwFail pumpA ++ wateringCycle hwFail [pumpB] ∧
     pumpSegment hwFail pumpA =
       (pumpA.water hwFail).1 ++
         [.warnPumpFailed "io error", .sleep pauseSecs]) :=
  ⟨by with_unfolding_all decide,
   (wateringCycle_error_isolation hwFail pumpA [pumpB]).1,
   (wateringCycle_error_isolation hwFail pumpA [pumpB]).2.1 "io error"
     (by with_unfolding_all decide)⟩

/-! Claim C5: strictly sequential actuation in configuration order. -/

/-- Every write of a pump segment is a write emitted by the pump's own
watering (the warning and pause tail holds no write). -/
theorem pumpSegment_writes (hw : Hw) (p : Pump) :
    writesOf (pumpSegment hw p) = writesOf (p.water hw).1 := by
  unfold pumpSegment
  dsimp only
  rw [writesOf_append, writesOf_append]
  cases h : (p.water hw).2 <;> simp [h, writesOf, eventWrite]

/-- C5: the watering phase actuates pumps strictly one at a time in the
order of the configured slice: for pumps `a`, `b`, `c` in that order the
cycle trace is `a`'s full segment, then `b`'s, then `c`'s, concatenated;
and every physical write inside a pump's segment is on that pump's own
pin, so segments are never interleaved or reordered. -/
theorem wateringCycle_sequential (hw : Hw) (a b c : Pump) :
    wateringCycle hw [a, b, c] =
      pumpSegment hw a ++ pumpSegment hw b ++ pumpSegment hw c ∧
    (∀ p : Pump, ∀ w ∈ writesOf (pumpSegment hw p), w.1 = p.pin.name) := by
  constructor
  · simp [wateringCycle, List.append_assoc]
  · intro p w hmem
    rw [pumpSegment_writes] at hmem
    exact water_writes_on_pin hw p w hmem

/-- Witness for C5 with three sample pumps on succeeding hardware; the
write of level 1 in `pumpA`'s segment is on `pumpA`'s pin. -/
theorem wateringCycle_sequential_witness :
    (("gpio1", 1) ∈ writesOf (pumpSegment hwOk pumpA) ∧
     wateringCycle hwOk [pumpA, pumpB, pumpC] =
       pumpSegment hwOk pumpA ++ pumpSegment hwOk pumpB ++
         pumpSegment hwOk pumpC) ∧
    (("gpio1", 1) : String × ℕ).1 = pumpA.pin.name :=
  ⟨⟨by with_unfolding_all decide,
    (wateringCycle_sequential hwOk pumpA pumpB pumpC).1⟩,
   (wateringCycle_sequential hwOk pumpA pumpB pumpC).2 pumpA ("gpio1", 1)
     (by with_unfolding_all decide)⟩

/-! Claim C6: disabled pins accept writes with no physical effect. -/

/-- C6 (the behavior `main.rs` gives a pin whose enable flag is false):
every write to a disabled pin is accepted and returns success, and a pulse
on it sleeps but never transitions the line — its trace holds no physical
write at all. -/
theorem disabled_pin_accepts_writes (hw : Hw) (name : String) :
    (∀ v, (Pin.mk name false).set_value hw v = ([], none)) ∧
    (∀ d, (Pin.mk name false).create_pulse hw d = ([.sleep d], none)) ∧
    (∀ d, writesOf ((Pin.mk name false).create_pulse hw d).1 = []) := by
  refine ⟨fun v => rfl, fun d => rfl, fun d => rfl⟩

/-! Claim C7: the manual test pulse. -/

/-- C7: `test` applies to the caller-supplied duration the very same
inclusive range check as `water` does — it invokes the same
`pump_for_secs` on the pump it found — and when the caller gives no
duration it uses the default of exactly one second. -/
theorem test_range_check_and_default (hw : Hw) (pumps : List Pump)
    (args : TestArgs) (p : Pump)
    (hfind : pumps.find? (fun q => q.name == args.pump) = some p) :
    DEFAULT_TEST_SECS = F64.fin 1 ∧
    test hw args pumps =
      ((p.pump_for_secs hw (args.secs.getD DEFAULT_TEST_SECS)).1,
       (p.pump_for_secs hw (args.secs.getD DEFAULT_TEST_SECS)).2.map
         MainError.actuation) ∧
    (args.secs = none → args.secs.getD DEFAULT_TEST_SECS = F64.fin 1) := by
  refine ⟨rfl, ?_, ?_⟩
  · simp [test, hfind]
  · intro h
    rw [h]
    rfl

/-- Witness for C7: testing `pumpA` by name with no duration given. -/
theorem test_range_check_and_default_witness :
    [pumpA].find? (fun q => q.name == "p1") = some pumpA ∧
    (DEFAULT_TEST_SECS = F64.fin 1 ∧
     test hwOk ⟨"p1", none⟩ [pumpA] =
       ((pumpA.pump_for_secs hwOk
          ((none : Option F64).getD DEFAULT_TEST_SECS)).1,
        (pumpA.pump_for_secs hwOk
          ((none : Option F64).getD DEFAULT_TEST_SECS)).2.map
          MainError.actuation) ∧
     ((none : Option F64) = none →
       (none : Option F64).getD DEFAULT_TEST_SECS = F64.fin 1)) :=
  ⟨by decide, test_range_check_and_default hwOk [pumpA] ⟨"p1", none⟩ pumpA
    (by decide)⟩

/-! Claim C8: the unknown-pump error of the manual test mode. -/

/-- A `pump_for_secs` call makes at most one pulse attempt: its trace
contains at most one write of level 1. -/
theorem pump_for_secs_one_start (hw : Hw) (p : Pump) (secs : F64) :
    ((writesOf (p.pump_for_secs hw secs).1).countP
      (fun w => w.2 == 1)) ≤ 1 := by
  unfold Pump.pump_for_secs Pump.pump
  split
  · rcases create_pulse_trace_cases hw p.pin secs.toQ with h | h | h | h <;>
      rw [h] <;> simp [writesOf, eventWrite, List.countP, List.countP.go]
  · simp [writesOf, eventWrite, List.countP, List.countP.go]

/-- C8: manual test mode with a pump name matching no configured pump
performs no pin activity, reports the not-found error naming the pump,
and the process exits non-zero; with a matching name, the found pump is
pulsed once — its trace holds at most one write of level 1. -/
theorem test_pump_not_found (hw : Hw) (pumps : List Pump) (args : TestArgs) :
    (pumps.find? (fun q => q.name == args.pump) = none →
      test hw args pumps = ([], some (.pumpNotFound args.pump)) ∧
      exitCode (test hw args pumps).2 = 1) ∧
    (∀ p, pumps.find? (fun q => q.name == args.pump) = some p →
      (test hw args pumps).1 =
        (p.pump_for_secs hw (args.secs.getD DEFAULT_TEST_SECS)).1 ∧
      ((writesOf (test hw args pumps).1).countP
        (fun w => w.2 == 1)) ≤ 1) := by
  constructor
  · intro h
    constructor
    · simp [test, h]
    · simp [test, h, exitCode]
  · intro p hp
    have ht : (test hw args pumps).1 =
        (p.pump_for_secs hw (args.secs.getD DEFAULT_TEST_SECS)).1 := by
      simp [test, hp]
    exact ⟨ht, by rw [ht]; exact pump_for_secs_one_start hw p _⟩

/-- Witness for C8: no pump named "nope" is configured, so `test` reports
the not-found error and exits non-zero; the branch for a found pump is
exercised on `pumpA`. -/
theorem test_pump_not_found_witness :
    [pumpA].find? (fun q => q.name == "nope") = none ∧
    (test hwOk ⟨"nope", none⟩ [pumpA] =
       ([], some (.pumpNotFound "nope")) ∧
     exitCode (test hwOk ⟨"nope", none⟩ [pumpA]).2 = 1) ∧
    [pumpA].find? (fun q => q.name == "p1") = some pumpA ∧
    ((test hwOk ⟨"p1", none⟩ [pumpA]).1 =
       (pumpA.pump_for_secs hwOk
         ((none : Option F64).getD DEFAULT_TEST_SECS)).1 ∧
     ((writesOf (test hwOk ⟨"p1", none⟩ [pumpA]).1).countP
       (fun w => w.2 == 1)) ≤ 1) :=
  ⟨by decide,
   (test_pump_not_found hwOk [pumpA] ⟨"nope", none⟩).1 (by decide),
   by decide,
   (test_pump_not_found hwOk [pumpA] ⟨"p1", none⟩).2 pumpA (by decide)⟩

/-! Claim C9: totality of `water` for degenerate parameters. -/

/-- C9: `water` is total even for degenerate parameters: with a zero flow
rate the division yields NaN or an infinity rather than faulting, the
inclusive range check rejects that value (NaN and both infinities always
fail it), and the pump is skipped with no actuation and no error
returned. -/
theorem water_total_degenerate (hw : Hw) (p : Pump)
    (h0 : p.ml_per_s = F64.fin 0) :
    p.water hw = ([.warnOutOfRange p.name], none) ∧
    writesOf (p.water hw).1 = [] ∧
    (∀ b, inRange F64.nan = false ∧ inRange (F64.inf b) = false) := by
  have hrange : inRange (F64.fdiv p.ml_per_day p.ml_per_s) = false := by
    rw [h0]
    rcases hml : p.ml_per_day with _ | b | x
    · rfl
    · cases b <;> rfl
    · by_cases hx : x = 0
      · simp [F64.fdiv, hx]
        rfl
      · by_cases hx2 : 0 < x
        · simp [F64.fdiv, hx, hx2]
          rfl
        · simp [F64.fdiv, hx, hx2]
          rfl
  have hwd : p.water hw = ([.warnOutOfRange p.name], none) := by
    simp [Pump.water, Pump.pump_for_secs, hrange]
  refine ⟨hwd, by rw [hwd]; rfl, ?_⟩
  intro b
  cases b <;> exact ⟨rfl, rfl⟩

/-- Witness for C9 on `pumpZero` (100 mL/day at 0 mL/s). -/
theorem water_total_degenerate_witness :
    pumpZero.ml_per_s = F64.fin 0 ∧
    (pumpZero.water hwOk = ([.warnOutOfRange pumpZero.name], none) ∧
     writesOf (pumpZero.water hwOk).1 = [] ∧
     (∀ b, inRange F64.nan = false ∧ inRange (F64.inf b) = false)) :=
  ⟨by decide, water_total_degenerate hwOk pumpZero (by decide)⟩

/-! Claim C10: out-of-range test durations are not surfaced as errors. -/

/-- C10: an out-of-range pulse duration is not surfaced as an error at the
public interface: on a found pump with an out-of-range requested duration,
`pump_for_secs` skips and returns success, so `test` returns success with
no write, and the process exit code is zero even though no pulse
occurred. -/
theorem test_out_of_range_success (hw : Hw) (pumps : List Pump)
    (args : TestArgs) (p : Pump)
    (hfind : pumps.find? (fun q => q.name == args.pump) = some p)
    (hrange : inRange (args.secs.getD DEFAULT_TEST_SECS) = false) :
    p.pump_for_secs hw (args.secs.getD DEFAULT_TEST_SECS) =
      ([.warnOutOfRange p.name], none) ∧
    test hw args pumps = ([.warnOutOfRange p.name], none) ∧
    writesOf (test hw args pumps).1 = [] ∧
    exitCode (test hw args pumps).2 = 0 := by
  have h1 : p.pump_for_secs hw (args.secs.getD DEFAULT_TEST_SECS) =
      ([.warnOutOfRange p.name], none) := by
    simp [Pump.pump_for_secs, hrange]
  have h2 : test hw args pumps = ([.warnOutOfRange p.name], none) := by
    simp [test, hfind, h1]
  exact ⟨h1, h2, by rw [h2]; rfl, by rw [h2]; rfl⟩

/-- Witness for C10: testing `pumpA` with a requested duration of 100 s
(outside the 30 s bound) warns, writes nothing, and exits with code 0. -/
theorem test_out_of_range_success_witness :
    [pumpA].find? (fun q => q.name == "p1") = some pumpA ∧
    inRange ((some (F64.fin 100)).getD DEFAULT_TEST_SECS) = false ∧
    (pumpA.pump_for_secs hwOk
       ((some (F64.fin 100)).getD DEFAULT_TEST_SECS) =
       ([.warnOutOfRange pumpA.name], none) ∧
     test hwOk ⟨"p1", some (F64.fin 100)⟩ [pumpA] =
       ([.warnOutOfRange pumpA.name], none) ∧
     writesOf (test hwOk ⟨"p1", some (F64.fin 100)⟩ [pumpA]).1 = [] ∧
     exitCode (test hwOk ⟨"p1", some (F64.fin 100)⟩ [pumpA]).2 = 0) :=
  ⟨by decide, by decide,
   test_out_of_range_success hwOk [pumpA] ⟨"p1", some (F64.fin 100)⟩ pumpA
     (by decide) (by decide)⟩
